import Mathlib

/-!
Verification of the core logic of the google-news-scraper repository.

The development shallowly embeds the repository's Python functions:

* `src/extractors/utils_date_filter.py`:
  `build_time_range`, `parse_since_from_relative_config`,
  `filter_articles_by_published_at`.
* `src/extractors/google_news_parser.py`:
  `GoogleNewsScraper._extract_raw_article_url`, `_extract_source_icon`,
  `_resolve_redirect`, and the collection loop of `search`.
* `src/outputs/exporters.py`: `export_to_json` with `pretty=False`.

Instants are modelled as integer seconds since an epoch; Python `datetime`
values are modelled by a wall-clock value plus an optional UTC offset.
External collaborators (the `dateutil` fuzzy parser, the HTTP layer) are
modelled as explicit parameters, since the repository treats them as
opaque; the Python standard-library behaviours the code relies on
(`urllib.parse.urljoin` for the fixed base `https://news.google.com`,
`int()` on strings, `json.dump`/`json.loads` on the article grammar,
string falsiness) are embedded as executable Lean functions.
-/

namespace GNScraper

/-! ## utils_date_filter.py -/

/-- Python truthiness test of `Optional[int]`: `None` and `0` are falsy
(`if hours:` in `parse_since_from_relative_config`). -/
def optTruthy : Option Int → Bool
  | none => false
  | some n => decide (n ≠ 0)

/-- Guard `x is not None and x > 0` used by `build_time_range`. -/
def optPos : Option Int → Bool
  | none => false
  | some n => decide (0 < n)

/-- `build_time_range(hours, days, years)` from
`src/extractors/utils_date_filter.py` lines 11-28: the first argument that
is present and strictly positive wins, in order hours, days, years, and
produces the token `f"{n}h"` / `f"{n}d"` / `f"{n}y"`; otherwise `None`. -/
def build_time_range (hours days years : Option Int) : Option String :=
  if optPos hours then some (toString (hours.getD 0) ++ "h")
  else if optPos days then some (toString (days.getD 0) ++ "d")
  else if optPos years then some (toString (years.getD 0) ++ "y")
  else none

/-- Seconds per hour, day and (365-day) year, the `timedelta` conversions
used by `parse_since_from_relative_config`. -/
def secPerHour : Int := 3600

def secPerDay : Int := 86400

def secPerYear : Int := 365 * 86400

/-- `parse_since_from_relative_config(cfg)` from
`src/extractors/utils_date_filter.py` lines 30-48.  `now` stands for
`dt.datetime.utcnow()` as a UTC instant; `hours`, `days`, `years` are
`cfg.get(...)`.  The Python code guards each branch with bare truthiness
(`if hours:`), so any non-zero value is selected, and a year is
approximated as 365 days. -/
def parse_since_from_relative_config (now : Int)
    (hours days years : Option Int) : Option Int :=
  if optTruthy hours then some (now - hours.getD 0 * secPerHour)
  else if optTruthy days then some (now - days.getD 0 * secPerDay)
  else if optTruthy years then some (now - years.getD 0 * secPerYear)
  else none

/-- Model of a Python `datetime` produced by `dateutil.parser.parse`:
`value` is the wall-clock time in seconds read as if it were UTC, and
`tzOffset` is the attached UTC offset in seconds (`none` for a naive
datetime). -/
structure PyDatetime where
  value : Int
  tzOffset : Option Int
deriving DecidableEq, Repr

/-- Normalisation performed by `filter_articles_by_published_at` lines
70-73: a naive datetime gets `tzinfo=utc` attached (wall clock read as
UTC), an aware one is converted with `astimezone(utc)`. -/
def PyDatetime.toUtc (d : PyDatetime) : Int :=
  match d.tzOffset with
  | none => d.value
  | some off => d.value - off

/-- Decision made by the loop body of `filter_articles_by_published_at`
for one article: keep when `publishedAt` is falsy (`None` or `""`), keep
when `dateParse` fails, otherwise keep exactly when the normalised
instant is `≥ since`. -/
def keepArticle (dateParse : String → Option PyDatetime)
    (publishedAt : α → Option String) (since : Int) (art : α) : Bool :=
  match publishedAt art with
  | none => true
  | some s =>
    if s = "" then true
    else
      match dateParse s with
      | none => true
      | some d => decide (since ≤ d.toUtc)

/-- `filter_articles_by_published_at(articles, since)` from
`src/extractors/utils_date_filter.py` lines 50-86.  The `dateutil` parser
is the explicit parameter `dateParse` (`none` models the raised
exception); `publishedAt` models `art.get("publishedAt")`; `since` is
already an instant, matching `since.astimezone(dt.timezone.utc)` which
does not move the instant of an aware datetime. -/
def filter_articles_by_published_at (dateParse : String → Option PyDatetime)
    (publishedAt : α → Option String) (since : Int) :
    List α → List α
  | [] => []
  | art :: rest =>
    let tail := filter_articles_by_published_at dateParse publishedAt since rest
    match publishedAt art with
    | none => art :: tail
    | some s =>
      if s = "" then art :: tail
      else
        match dateParse s with
        | none => art :: tail
        | some d => if since ≤ d.toUtc then art :: tail else tail

theorem filter_articles_eq_filter (dateParse : String → Option PyDatetime)
    (publishedAt : α → Option String) (since : Int) (articles : List α) :
    filter_articles_by_published_at dateParse publishedAt since articles
      = articles.filter (keepArticle dateParse publishedAt since) := by
  induction articles with
  | nil => rfl
  | cons art rest ih =>
    simp only [filter_articles_by_published_at, ih, List.filter, keepArticle]
    cases h : publishedAt art with
    | none => simp
    | some s =>
      by_cases hs : s = ""
      · simp [hs]
      · cases hp : dateParse s with
        | none => simp [hs, hp]
        | some d =>
          by_cases hd : since ≤ d.toUtc
          · simp [hs, hp, hd]
          · simp [hs, hp, hd]

theorem optPos_eq_false {v : Option Int} (h : ∀ n ∈ v, n ≤ 0) :
    optPos v = false := by
  cases v with
  | none => rfl
  | some n =>
    have := h n rfl
    simp only [optPos, decide_eq_false_iff_not]
    omega

theorem optTruthy_eq_false {v : Option Int} (h : ∀ n ∈ v, n = 0) :
    optTruthy v = false := by
  cases v with
  | none => rfl
  | some n =>
    have := h n rfl
    simp [optTruthy, this]

/-- C5: `build_time_range` returns the token of the first positive
argument in priority order hours > days > years (a non-positive or
absent hours falls through to days, and so on), and returns absent when
every argument is absent or non-positive; in particular `hours=2,
days=5` yields `"2h"`. -/
theorem build_time_range_spec :
    (∀ hours days years : Option Int,
        (∀ n ∈ hours, n ≤ 0) → (∀ n ∈ days, n ≤ 0) → (∀ n ∈ years, n ≤ 0) →
        build_time_range hours days years = none)
  ∧ (∀ (h : Int) (days years : Option Int), 0 < h →
        build_time_range (some h) days years = some (toString h ++ "h"))
  ∧ (∀ (hours : Option Int) (d : Int) (years : Option Int),
        (∀ n ∈ hours, n ≤ 0) → 0 < d →
        build_time_range hours (some d) years = some (toString d ++ "d"))
  ∧ (∀ (hours days : Option Int) (y : Int),
        (∀ n ∈ hours, n ≤ 0) → (∀ n ∈ days, n ≤ 0) → 0 < y →
        build_time_range hours days (some y) = some (toString y ++ "y"))
  ∧ build_time_range (some 2) (some 5) none = some "2h" := by
  refine ⟨?_, ?_, ?_, ?_, by decide⟩
  · intro hours days years h1 h2 h3
    simp [build_time_range, optPos_eq_false h1, optPos_eq_false h2,
      optPos_eq_false h3]
  · intro h days years hpos
    simp [build_time_range, optPos, hpos]
  · intro hours d years h1 hpos
    simp only [build_time_range, optPos_eq_false h1, Bool.false_eq_true,
      if_false]
    simp [optPos, hpos]
  · intro hours days y h1 h2 hpos
    simp only [build_time_range, optPos_eq_false h1, optPos_eq_false h2,
      Bool.false_eq_true, if_false]
    simp [optPos, hpos]

theorem build_time_range_spec_witness :
    build_time_range (some 0) (some 3) none = some (toString (3 : Int) ++ "d") :=
  build_time_range_spec.2.2.1 (some 0) 3 none (by simp) (by decide)

/-- C2 counterexample: the config `hours = -1` offers no positive value,
so the claim demands an absent result, but the Python guard `if hours:`
is bare truthiness: `-1` is selected and (with `now = 0`) the function
returns `some 3600`, an instant one hour *after* now. -/
theorem parse_since_counterexample :
    optPos (some (-1)) = false ∧
    parse_since_from_relative_config 0 (some (-1)) none none = some 3600 := by
  decide

/-- C2 amended: `parse_since_from_relative_config` selects the first
*non-zero* value in priority order hours > days > years (a zero or
absent value falls through), returns now (UTC) minus the selected
duration with one year approximated as 365 days, and returns absent
exactly when all of hours/days/years are absent or zero; a negative
value is selected (not treated as absent) and yields an instant after
now. -/
theorem parse_since_spec :
    (∀ (now h : Int) (days years : Option Int), h ≠ 0 →
        parse_since_from_relative_config now (some h) days years
          = some (now - h * secPerHour))
  ∧ (∀ (now : Int) (hours : Option Int) (d : Int) (years : Option Int),
        (∀ n ∈ hours, n = 0) → d ≠ 0 →
        parse_since_from_relative_config now hours (some d) years
          = some (now - d * secPerDay))
  ∧ (∀ (now : Int) (hours days : Option Int) (y : Int),
        (∀ n ∈ hours, n = 0) → (∀ n ∈ days, n = 0) → y ≠ 0 →
        parse_since_from_relative_config now hours days (some y)
          = some (now - y * secPerYear))
  ∧ (∀ (now : Int) (hours days years : Option Int),
        (∀ n ∈ hours, n = 0) → (∀ n ∈ days, n = 0) → (∀ n ∈ years, n = 0) →
        parse_since_from_relative_config now hours days years = none) := by
  refine ⟨?_, ?_, ?_, ?_⟩
  · intro now h days years hne
    simp [parse_since_from_relative_config, optTruthy, hne]
  · intro now hours d years h1 hne
    simp only [parse_since_from_relative_config, optTruthy_eq_false h1,
      Bool.false_eq_true, if_false]
    simp [optTruthy, hne]
  · intro now hours days y h1 h2 hne
    simp only [parse_since_from_relative_config, optTruthy_eq_false h1,
      optTruthy_eq_false h2, Bool.false_eq_true, if_false]
    simp [optTruthy, hne]
  · intro now hours days years h1 h2 h3
    simp [parse_since_from_relative_config, optTruthy_eq_false h1,
      optTruthy_eq_false h2, optTruthy_eq_false h3]

theorem parse_since_spec_witness :
    parse_since_from_relative_config 100 (some 2) (some 5) none
      = some (100 - 2 * secPerHour) :=
  parse_since_spec.1 100 2 (some 5) none (by decide)

/-- C3: `filter_articles_by_published_at` is a filter over the input:
it keeps every record whose `publishedAt` is absent, keeps every record
whose `publishedAt` fails to parse, keeps a record with a parseable
(non-empty) `publishedAt` exactly when its UTC instant is ≥ the cutoff
(inclusive boundary), and the surviving records form a subsequence of
the input (relative order preserved). -/
theorem filter_articles_spec :
    (∀ (α : Type) (p : String → Option PyDatetime) (pub : α → Option String)
        (since : Int) (arts : List α),
        filter_articles_by_published_at p pub since arts
          = arts.filter (keepArticle p pub since))
  ∧ (∀ (α : Type) (p : String → Option PyDatetime) (pub : α → Option String)
        (since : Int) (art : α), pub art = none →
        keepArticle p pub since art = true)
  ∧ (∀ (α : Type) (p : String → Option PyDatetime) (pub : α → Option String)
        (since : Int) (art : α) (s : String), pub art = some s → s ≠ "" →
        p s = none → keepArticle p pub since art = true)
  ∧ (∀ (α : Type) (p : String → Option PyDatetime) (pub : α → Option String)
        (since : Int) (art : α) (s : String) (d : PyDatetime),
        pub art = some s → s ≠ "" → p s = some d →
        (keepArticle p pub since art = true ↔ since ≤ d.toUtc))
  ∧ (∀ (α : Type) (p : String → Option PyDatetime) (pub : α → Option String)
        (since : Int) (arts : List α),
        (filter_articles_by_published_at p pub since arts).Sublist arts) := by
  refine ⟨?_, ?_, ?_, ?_, ?_⟩
  · intro α p pub since arts
    exact filter_articles_eq_filter p pub since arts
  · intro α p pub since art h
    simp [keepArticle, h]
  · intro α p pub since art s h hs hp
    simp [keepArticle, h, hs, hp]
  · intro α p pub since art s d h hs hp
    simp [keepArticle, h, hs, hp]
  · intro α p pub since arts
    rw [filter_articles_eq_filter]
    exact List.filter_sublist arts

theorem filter_articles_spec_witness :
    keepArticle (fun _ => none) (fun a : Option String => a) 0 (some "x")
      = true :=
  filter_articles_spec.2.2.1 (Option String) (fun _ => none) (fun a => a) 0
    (some "x") "x" rfl (by decide) rfl

/-- C9: a record whose `publishedAt` is present but equal to the empty
string (Python-falsy) is retained unconditionally, exactly like an
absent `publishedAt`: the keep decision is `true` for every parse
function and every cutoff (so no parse is attempted and the cutoff is
never consulted), and the record is emitted in place by the filter. -/
theorem filter_empty_published_at_kept :
    ∀ (α : Type) (p : String → Option PyDatetime) (pub : α → Option String)
      (since : Int) (art : α) (arts : List α), pub art = some "" →
      keepArticle p pub since art = true ∧
      filter_articles_by_published_at p pub since (art :: arts)
        = art :: filter_articles_by_published_at p pub since arts := by
  intro α p pub since art arts h
  constructor
  · simp [keepArticle, h]
  · simp [filter_articles_by_published_at, h]

theorem filter_empty_published_at_kept_witness :
    keepArticle (fun _ => none) (fun a : Option String => a) 5 (some "")
        = true ∧
      filter_articles_by_published_at (fun _ => none)
          (fun a : Option String => a) 5 [some ""]
        = some "" :: filter_articles_by_published_at (fun _ => none)
            (fun a : Option String => a) 5 [] :=
  filter_empty_published_at_kept (Option String) (fun _ => none)
    (fun a => a) 5 (some "") [] rfl

/-! ## google_news_parser.py: raw article URL extraction

A card node is represented, for this extractor, by the list of `href`
attributes of its `<a>` descendants in document order (`none` for an
`<a>` without an `href` attribute).  `find("a", href=True)` in
BeautifulSoup matches the first tag *having* the attribute, whatever its
value (an empty string included). -/

def GOOGLE_NEWS_BASE : String := "https://news.google.com"

/-- Python `str.startswith(pat)` on code points. -/
def startsWithStr (s pat : String) : Bool := pat.data.isPrefixOf s.data

/-- Python `href.lstrip("./")`: drop every leading character belonging
to the set `{'.', '/'}`. -/
def lstripDotSlash (s : String) : String :=
  String.mk (s.data.dropWhile (fun c => c = '.' || c = '/'))

/-- Characters allowed in a URL scheme by `urllib.parse.urlsplit`. -/
def isSchemeChar (c : Char) : Bool :=
  c.isAlphanum || c = '+' || c = '-' || c = '.'

def schemeSplitAux : List Char → List Char → Option (String × String)
  | _, [] => none
  | acc, c :: rest =>
    if c = ':' then some (String.mk (acc.reverse.map Char.toLower), String.mk rest)
    else if isSchemeChar c then schemeSplitAux (c :: acc) rest
    else none

/-- Scheme detection of `urllib.parse.urlsplit`: an initial alphabetic
character followed by scheme characters up to a colon yields the
(lowercased) scheme and the remainder; otherwise the URL has no scheme. -/
def splitScheme (s : String) : Option (String × String) :=
  match s.data with
  | [] => none
  | c :: _ => if c.isAlpha then schemeSplitAux [] s.data else none

def joinRelPath (p : String) : String :=
  if p = "" then GOOGLE_NEWS_BASE
  else if startsWithStr p "/" then GOOGLE_NEWS_BASE ++ p
  else if startsWithStr p "?" || startsWithStr p "#" then GOOGLE_NEWS_BASE ++ p
  else GOOGLE_NEWS_BASE ++ "/" ++ p

/-- Model of `urllib.parse.urljoin(GOOGLE_NEWS_BASE, url)` for the fixed
base `https://news.google.com` (scheme `https`, empty path): an empty
URL yields the base; a URL with a scheme other than `https` is returned
unchanged; a URL with scheme `https` or no scheme keeps its authority if
it has one (`//...`) and is otherwise joined to the base as a path.
Dot-segment normalisation inside the path is not modelled (no claim
depends on it). -/
def pyUrljoin (url : String) : String :=
  if url = "" then GOOGLE_NEWS_BASE
  else
    match splitScheme url with
    | some (sch, rest) =>
      if sch ≠ "https" then url
      else if startsWithStr rest "//" then "https:" ++ rest
      else joinRelPath rest
    | none =>
      if startsWithStr url "//" then "https:" ++ url
      else joinRelPath url

/-- `article.find("a", href=True)`: the first anchor having an `href`
attribute (of any value). -/
def findAnchorWithHref : List (Option String) → Option String
  | [] => none
  | some h :: _ => some h
  | none :: rest => findAnchorWithHref rest

/-- The per-href resolution of `_extract_raw_article_url` lines 151-157:
`"./"`/`"/"` prefixes are stripped (`lstrip("./")`) and joined to the
base, `http://`/`https://` URLs pass through, anything else goes through
`urljoin` against the base. -/
def resolveRawHref (href : String) : String :=
  if startsWithStr href "./" || startsWithStr href "/" then
    pyUrljoin (lstripDotSlash href)
  else if startsWithStr href "http://" || startsWithStr href "https://" then
    href
  else pyUrljoin href

/-- `GoogleNewsScraper._extract_raw_article_url(article)` from
`src/extractors/google_news_parser.py` lines 146-157. -/
def extract_raw_article_url (anchors : List (Option String)) : Option String :=
  match findAnchorWithHref anchors with
  | none => none
  | some href => some (resolveRawHref href)

theorem findAnchorWithHref_all_none {anchors : List (Option String)}
    (h : ∀ a ∈ anchors, a = none) : findAnchorWithHref anchors = none := by
  induction anchors with
  | nil => rfl
  | cons a rest ih =>
    have ha : a = none := h a (by simp)
    subst ha
    exact ih (fun x hx => h x (by simp [hx]))

theorem findAnchorWithHref_skip {pre : List (Option String)}
    (h : ∀ a ∈ pre, a = none) (rest : List (Option String)) :
    findAnchorWithHref (pre ++ rest) = findAnchorWithHref rest := by
  induction pre with
  | nil => rfl
  | cons a tl ih =>
    have ha : a = none := h a (by simp)
    subst ha
    simpa [findAnchorWithHref] using ih (fun x hx => h x (by simp [hx]))

theorem startsWithStr_http_not_slash {h : String}
    (hp : startsWithStr h "http://" = true ∨ startsWithStr h "https://" = true) :
    startsWithStr h "./" = false ∧ startsWithStr h "/" = false := by
  have hd : ∃ t, h.data = 'h' :: t := by
    rcases hp with hp | hp <;>
    · have := List.isPrefixOf_iff_prefix.mp hp
      rcases this with ⟨t, ht⟩
      exact ⟨_, by rw [← ht]; rfl⟩
  rcases hd with ⟨t, ht⟩
  constructor <;> simp [startsWithStr, ht, List.isPrefixOf]

/-- C4 counterexample: on a card whose first hyperlink has an *empty*
`href` attribute and whose second hyperlink has
`href="https://example.com/a"`, the code selects the first (presence,
not non-emptiness, is tested by `find("a", href=True)`) and resolves the
empty href to the bare base origin, not to the second hyperlink's URL as
the claim requires. -/
theorem extract_raw_url_counterexample :
    extract_raw_article_url [some "", some "https://example.com/a"]
        = some "https://news.google.com" ∧
      ("https://news.google.com" : String) ≠ "https://example.com/a" := by
  constructor
  · rfl
  · decide

/-- C4 amended: raw-URL extraction takes the href of the first hyperlink
*having* an `href` attribute — even an empty one, which resolves to the
bare base origin — and returns absent when no hyperlink carries an
`href` attribute; hrefs starting with "./" or "/" are stripped of all
leading '.' and '/' characters and joined against the base origin;
hrefs starting with "http://" or "https://" pass through unchanged; any
other href is resolved against the base origin with urljoin semantics
(in particular an href carrying a URL scheme other than https, e.g.
"mailto:...", passes through unchanged).  Concretely, "./articles/XYZ"
resolves to "https://news.google.com/articles/XYZ" and
"https://example.com/a" passes through unchanged. -/
theorem extract_raw_url_spec :
    (∀ anchors : List (Option String), (∀ a ∈ anchors, a = none) →
        extract_raw_article_url anchors = none)
  ∧ (∀ (pre rest : List (Option String)) (h : String), (∀ a ∈ pre, a = none) →
        extract_raw_article_url (pre ++ some h :: rest)
          = some (resolveRawHref h))
  ∧ (∀ h : String,
        startsWithStr h "http://" = true ∨ startsWithStr h "https://" = true →
        resolveRawHref h = h)
  ∧ (∀ h : String,
        startsWithStr h "./" = true ∨ startsWithStr h "/" = true →
        resolveRawHref h = pyUrljoin (lstripDotSlash h))
  ∧ (∀ (h : String) (sch rest : String), h ≠ "" →
        splitScheme h = some (sch, rest) → sch ≠ "https" →
        pyUrljoin h = h)
  ∧ resolveRawHref "./articles/XYZ" = "https://news.google.com/articles/XYZ"
  ∧ resolveRawHref "https://example.com/a" = "https://example.com/a" := by
  refine ⟨?_, ?_, ?_, ?_, ?_, by rfl, by rfl⟩
  · intro anchors h
    simp [extract_raw_article_url, findAnchorWithHref_all_none h]
  · intro pre rest h hpre
    simp [extract_raw_article_url, findAnchorWithHref_skip hpre,
      findAnchorWithHref]
  · intro h hp
    have hns := startsWithStr_http_not_slash hp
    rcases hp with hp | hp <;>
      simp [resolveRawHref, hns.1, hns.2, hp]
  · intro h hp
    rcases hp with hp | hp <;> simp [resolveRawHref, hp]
  · intro h sch rest hne hsp hsch
    simp [pyUrljoin, hne, hsp, hsch]

theorem extract_raw_url_spec_witness :
    extract_raw_article_url [none, some "./articles/XYZ"]
      = some (resolveRawHref "./articles/XYZ") :=
  extract_raw_url_spec.2.1 [none] [] "./articles/XYZ" (by simp)

/-! ## google_news_parser.py: source icon extraction

A card node is represented, for this extractor, by the list of its
`<img>` descendants in document order, each carrying its `width`,
`height`, `src` and `data-src` attributes. -/

structure ImgTag where
  width : Option String
  height : Option String
  src : Option String
  dataSrc : Option String
deriving DecidableEq, Repr

def parseDigits : List Char → Option Nat
  | [] => none
  | cs =>
    if cs.all Char.isDigit then
      some (cs.foldl (fun n c => n * 10 + (c.toNat - 48)) 0)
    else none

def isPySpace (c : Char) : Bool := c = ' ' || c = '\t' || c = '\n' || c = '\r'

/-- Model of Python `int(s)` on a string: optional surrounding
whitespace, an optional sign, then one or more ASCII digits (underscore
grouping and non-ASCII digits are out of scope); `none` models the
raised `ValueError`. -/
def pyInt (s : String) : Option Int :=
  let cs := ((s.data.dropWhile isPySpace).reverse.dropWhile isPySpace).reverse
  match cs with
  | '+' :: rest => (parseDigits rest).map Int.ofNat
  | '-' :: rest => (parseDigits rest).map (fun n => -(Int.ofNat n))
  | rest => (parseDigits rest).map Int.ofNat

/-- `area = int(img.get("width")) * int(img.get("height"))` under the
`try` of `_extract_source_icon`: defined exactly when both attributes
are present and parse as integers (a missing attribute is `None`, and
`int(None)` raises). -/
def imgArea (img : ImgTag) : Option Int :=
  match img.width, img.height with
  | some w, some h =>
    match pyInt w, pyInt h with
    | some a, some b => some (a * b)
    | _, _ => none
  | _, _ => none

/-- The accumulator loop of `_extract_source_icon` lines 204-213:
`best` carries `(smallest, smallest_area)`, and an image replaces it
only when its area is strictly smaller. -/
def smallestIconLoop : List ImgTag → Option (ImgTag × Int) → Option (ImgTag × Int)
  | [], best => best
  | img :: rest, best =>
    match imgArea img with
    | none => smallestIconLoop rest best
    | some area =>
      match best with
      | none => smallestIconLoop rest (some (img, area))
      | some b =>
        if area < b.2 then smallestIconLoop rest (some (img, area))
        else smallestIconLoop rest (some b)

/-- Python `x or y` on `Optional[str]` operands: the right operand when
the left is falsy (`None` or `""`). -/
def pyOrStr : Option String → Option String → Option String
  | some s, b => if s = "" then b else some s
  | none, b => b

/-- `GoogleNewsScraper._extract_source_icon(article)` from
`src/extractors/google_news_parser.py` lines 195-216. -/
def extract_source_icon (imgs : List ImgTag) : Option String :=
  if imgs = [] then none
  else
    match smallestIconLoop imgs none with
    | none => none
    | some p => pyOrStr p.1.src p.1.dataSrc

theorem smallestIconLoop_all_none :
    ∀ (imgs : List ImgTag) (best : Option (ImgTag × Int)),
      (∀ i ∈ imgs, imgArea i = none) → smallestIconLoop imgs best = best := by
  intro imgs
  induction imgs with
  | nil => intro best _; rfl
  | cons img rest ih =>
    intro best h
    have h0 : imgArea img = none := h img (by simp)
    simp only [smallestIconLoop, h0]
    exact ih best (fun i hi => h i (by simp [hi]))

theorem smallestIconLoop_spec :
    ∀ (imgs : List ImgTag) (best : Option (ImgTag × Int)) (res : ImgTag × Int),
      smallestIconLoop imgs best = some res →
      (best = some res ∨ (res.1 ∈ imgs ∧ imgArea res.1 = some res.2))
      ∧ (∀ j ∈ imgs, ∀ a, imgArea j = some a → res.2 ≤ a)
      ∧ (∀ b, best = some b → res.2 ≤ b.2) := by
  intro imgs
  induction imgs with
  | nil =>
    intro best res h
    simp only [smallestIconLoop] at h
    refine ⟨Or.inl h, by simp, fun b hb => ?_⟩
    rw [h] at hb
    cases hb
    exact le_refl _
  | cons img rest ih =>
    intro best res h
    cases h0 : imgArea img with
    | none =>
      simp only [smallestIconLoop, h0] at h
      obtain ⟨hsrc, hmin, hbest⟩ := ih best res h
      refine ⟨?_, ?_, hbest⟩
      · rcases hsrc with hb | ⟨hm, ha⟩
        · exact Or.inl hb
        · exact Or.inr ⟨by simp [hm], ha⟩
      · intro j hj a haj
        rcases List.mem_cons.mp hj with rfl | hj
        · rw [h0] at haj; cases haj
        · exact hmin j hj a haj
    | some area =>
      cases best with
      | none =>
        simp only [smallestIconLoop, h0] at h
        obtain ⟨hsrc, hmin, hbest⟩ := ih (some (img, area)) res h
        have hra : res.2 ≤ area := hbest (img, area) rfl
        refine ⟨?_, ?_, by intro b hb; cases hb⟩
        · rcases hsrc with hb | ⟨hm, ha⟩
          · cases hb
            exact Or.inr ⟨by simp, h0⟩
          · exact Or.inr ⟨by simp [hm], ha⟩
        · intro j hj a haj
          rcases List.mem_cons.mp hj with rfl | hj
          · rw [h0] at haj
            cases haj
            exact hra
          · exact hmin j hj a haj
      | some b =>
        simp only [smallestIconLoop, h0] at h
        by_cases hlt : area < b.2
        · rw [if_pos hlt] at h
          obtain ⟨hsrc, hmin, hbest⟩ := ih (some (img, area)) res h
          have hra : res.2 ≤ area := hbest (img, area) rfl
          refine ⟨?_, ?_, ?_⟩
          · rcases hsrc with hb | ⟨hm, ha⟩
            · cases hb
              exact Or.inr ⟨by simp, h0⟩
            · exact Or.inr ⟨by simp [hm], ha⟩
          · intro j hj a haj
            rcases List.mem_cons.mp hj with rfl | hj
            · rw [h0] at haj
              cases haj
              exact hra
            · exact hmin j hj a haj
          · intro b' hb'
            cases hb'
            omega
        · rw [if_neg hlt] at h
          obtain ⟨hsrc, hmin, hbest⟩ := ih (some b) res h
          have hrb : res.2 ≤ b.2 := hbest b rfl
          refine ⟨?_, ?_, ?_⟩
          · rcases hsrc with hb | ⟨hm, ha⟩
            · exact Or.inl hb
            · exact Or.inr ⟨by simp [hm], ha⟩
          · intro j hj a haj
            rcases List.mem_cons.mp hj with rfl | hj
            · rw [h0] at haj
              cases haj
              omega
            · exact hmin j hj a haj
          · intro b' hb'
            cases hb'
            exact hrb

/-- C6: source-icon extraction returns the `src` (with `data-src`
fallback, Python `or`) of an image of minimal width×height area among
the images whose width and height attributes both parse as integers,
and returns absent when no image in the card has both dimensions
parseable; given images of dimensions 100×100, 10×10 and no dimensions,
it returns the 10×10 image's source. -/
theorem extract_source_icon_spec :
    (∀ imgs : List ImgTag, (∀ i ∈ imgs, imgArea i = none) →
        extract_source_icon imgs = none)
  ∧ (∀ (imgs : List ImgTag) (img : ImgTag) (area : Int),
        smallestIconLoop imgs none = some (img, area) →
        img ∈ imgs ∧ imgArea img = some area ∧
          (∀ j ∈ imgs, ∀ a, imgArea j = some a → area ≤ a) ∧
          extract_source_icon imgs = pyOrStr img.src img.dataSrc)
  ∧ extract_source_icon
        [⟨some "100", some "100", some "https://big.icon", none⟩,
         ⟨some "10", some "10", some "https://small.icon", none⟩,
         ⟨none, none, some "https://nodims.icon", none⟩]
      = some "https://small.icon" := by
  refine ⟨?_, ?_, by rfl⟩
  · intro imgs h
    by_cases he : imgs = []
    · simp [extract_source_icon, he]
    · simp [extract_source_icon, he, smallestIconLoop_all_none imgs none h]
  · intro imgs img area hloop
    obtain ⟨hsrc, hmin, _⟩ := smallestIconLoop_spec imgs none (img, area) hloop
    rcases hsrc with hb | ⟨hm, ha⟩
    · cases hb
    · have hne : imgs ≠ [] := by
        intro h0
        rw [h0] at hm
        cases hm
      exact ⟨hm, ha, hmin, by simp [extract_source_icon, hne, hloop]⟩

theorem extract_source_icon_spec_witness :
    extract_source_icon [⟨none, some "10", some "https://x.icon", none⟩]
      = none :=
  extract_source_icon_spec.1 [⟨none, some "10", some "https://x.icon", none⟩]
    (by decide)

/-! ## google_news_parser.py: redirect resolution -/

/-- The parts of a `requests` response that `_resolve_redirect` reads:
the redirect flag, the redirect `history`, the status code and the final
`url` of the response. -/
structure HttpResponse where
  is_redirect : Bool
  history : List String
  status_code : Int
  url : String
deriving DecidableEq, Repr

/-- `GoogleNewsScraper._resolve_redirect(url)` from
`src/extractors/google_news_parser.py` lines 99-129.  The two network
round trips are explicit arguments: `head` is the outcome of
`session.head(url, allow_redirects=True)` and `get` of the fallback
`session.get(url, allow_redirects=True)`; `Except.error` models a
raised network exception (timeout, DNS failure, connection error),
which the surrounding `try`/`except` turns into `None`. -/
def resolve_redirect (head get : Except Unit HttpResponse) : Option String :=
  match head with
  | .error _ => none
  | .ok resp =>
    if resp.is_redirect || !resp.history.isEmpty then some resp.url
    else if 400 ≤ resp.status_code then
      match get with
      | .error _ => none
      | .ok r2 => some r2.url
    else some resp.url

/-- C7: every network-level failure during redirect resolution (modelled
as the request returning `Except.error`) is caught inside
`_resolve_redirect` and makes it return absent: a raising HEAD yields
`none` whatever the GET would do, and a raising fallback GET (issued
when the HEAD response is no redirect and has status ≥ 400) yields
`none`; the embedding is a total function into `Option`, so no error
from resolution propagates to the caller. -/
theorem resolve_redirect_catches :
    (∀ (e : Unit) (g : Except Unit HttpResponse),
        resolve_redirect (Except.error e) g = none)
  ∧ (∀ (resp : HttpResponse) (e : Unit), resp.is_redirect = false →
        resp.history = [] → 400 ≤ resp.status_code →
        resolve_redirect (Except.ok resp) (Except.error e) = none) := by
  constructor
  · intro e g
    rfl
  · intro resp e h1 h2 h3
    simp [resolve_redirect, h1, h2, h3]

theorem resolve_redirect_catches_witness :
    resolve_redirect (Except.ok ⟨false, [], 404, "https://a.example/x"⟩)
      (Except.error ()) = none :=
  resolve_redirect_catches.2 ⟨false, [], 404, "https://a.example/x"⟩ ()
    rfl rfl (by decide)

/-- C10: when the HEAD request succeeds with status below 400 and no
redirect occurred (redirect flag false and empty redirect history),
`_resolve_redirect` returns the response's URL — for a non-redirecting
probe this is the requested URL itself — rather than absent, whatever
the (unissued) fallback GET would have produced. -/
theorem resolve_redirect_no_redirect (resp : HttpResponse)
    (g : Except Unit HttpResponse) (h1 : resp.is_redirect = false)
    (h2 : resp.history = []) (h3 : resp.status_code < 400) :
    resolve_redirect (Except.ok resp) g = some resp.url := by
  have h4 : ¬ (400 ≤ resp.status_code) := by omega
  simp [resolve_redirect, h1, h2, h4]

theorem resolve_redirect_no_redirect_witness :
    resolve_redirect (Except.ok ⟨false, [], 200, "https://dest.example/a"⟩)
      (Except.error ()) = some "https://dest.example/a" :=
  resolve_redirect_no_redirect ⟨false, [], 200, "https://dest.example/a"⟩
    (Except.error ()) rfl rfl (by decide)

/-! ## google_news_parser.py: the search collection loop

`search` fetches and parses one page and then iterates the card nodes in
document order.  The embedding abstracts a card as an element of an
arbitrary type `κ` together with the extraction outcomes: `rawUrl c`
models `_extract_raw_article_url(article_tag)` and `mk c u` the
`GoogleNewsArticle(...)` constructed from the card and its raw URL
(redirect resolution and the remaining extractors are per-card and do
not influence the control flow). -/

/-- The dataclass `GoogleNewsArticle`, parametric in the text type. -/
structure GoogleNewsArticle (σ : Type) where
  googleNewsUrl : σ
  articleUrl : σ
  decodedArticleUrl : Option σ
  title : σ
  publishedAt : Option σ
  imageUrl : Option σ
  source : Option σ
  sourceIconUrl : Option σ
  author : Option σ
deriving DecidableEq, Repr

/-- The loop body of `GoogleNewsScraper.search` lines 256-282: falsy raw
URLs (`if not raw_url: continue`) skip the card, otherwise the record is
appended and `if len(articles) >= max_items: break` is tested; `count`
is `len(articles)` before the current card. -/
def searchLoop (rawUrl : κ → Option String)
    (mk : κ → String → GoogleNewsArticle String) (maxItems : Int) :
    List κ → Int → List (GoogleNewsArticle String)
  | [], _ => []
  | c :: cs, count =>
    match rawUrl c with
    | none => searchLoop rawUrl mk maxItems cs count
    | some u =>
      if u = "" then searchLoop rawUrl mk maxItems cs count
      else
        if maxItems ≤ count + 1 then [mk c u]
        else mk c u :: searchLoop rawUrl mk maxItems cs (count + 1)

/-- `GoogleNewsScraper.search(query, when, max_items)` restricted to its
record-collection phase (lines 256-285), starting from an empty
`articles` list. -/
def search (rawUrl : κ → Option String)
    (mk : κ → String → GoogleNewsArticle String) (maxItems : Int)
    (cards : List κ) : List (GoogleNewsArticle String) :=
  searchLoop rawUrl mk maxItems cards 0

/-- The record `search` produces for one card: none when the raw URL is
falsy (absent or empty), otherwise the constructed article. -/
def searchRecord (rawUrl : κ → Option String)
    (mk : κ → String → GoogleNewsArticle String) (c : κ) :
    Option (GoogleNewsArticle String) :=
  match rawUrl c with
  | none => none
  | some u => if u = "" then none else some (mk c u)

theorem searchLoop_eq_take (rawUrl : κ → Option String)
    (mk : κ → String → GoogleNewsArticle String) (maxItems : Int) :
    ∀ (cards : List κ) (count : Int), count < maxItems →
      searchLoop rawUrl mk maxItems cards count
        = (cards.filterMap (searchRecord rawUrl mk)).take
            (maxItems - count).toNat := by
  intro cards
  induction cards with
  | nil =>
    intro count _
    simp [searchLoop]
  | cons c cs ih =>
    intro count hlt
    cases hr : rawUrl c with
    | none =>
      simp only [searchLoop, hr, List.filterMap_cons, searchRecord]
      exact ih count hlt
    | some u =>
      by_cases hu : u = ""
      · simp only [searchLoop, hr, hu, if_pos rfl, List.filterMap_cons,
          searchRecord, if_true]
        simpa using ih count hlt
      · by_cases hstop : maxItems ≤ count + 1
        · have h1 : (maxItems - count).toNat = 1 := by omega
          simp [searchLoop, hr, hu, hstop, List.filterMap_cons, searchRecord,
            h1]
        · have h1 : (maxItems - count).toNat
              = (maxItems - (count + 1)).toNat + 1 := by omega
          simp [searchLoop, hr, hu, hstop, List.filterMap_cons, searchRecord,
            h1, List.take_succ_cons, ih (count + 1) (by omega)]

/-- C1 counterexample: with `maxItems = 0` and a page holding one card
with a valid URL, `search` returns 1 record — more than `maxItems` —
because `len(articles) >= max_items` is only tested *after* appending. -/
theorem search_counterexample :
    ¬ ((search (fun u : Option String => u)
          (fun _ u => ⟨"", u, none, "", none, none, none, none, none⟩) 0
          [some "https://example.com/a"]).length ≤ 0) := by
  decide

/-- C1 amended: for every parsed page and every `maxItems ≥ 1`, `search`
skips any card whose raw-URL extraction yields a falsy value (producing
zero records for that card), returns at most `maxItems` records, and its
output is exactly the `maxItems`-prefix of the records of the cards with
a resolvable URL in document order (stopping as soon as `maxItems`
records are collected).  For `maxItems ≤ 0` the loop still emits the
first valid record, because the bound is tested only after appending;
hence the restriction to `maxItems ≥ 1`. -/
theorem search_spec :
    ∀ (κ : Type) (rawUrl : κ → Option String)
      (mk : κ → String → GoogleNewsArticle String) (maxItems : Int)
      (cards : List κ), 1 ≤ maxItems →
      search rawUrl mk maxItems cards
          = (cards.filterMap (searchRecord rawUrl mk)).take maxItems.toNat
        ∧ (search rawUrl mk maxItems cards).length ≤ maxItems.toNat := by
  intro κ rawUrl mk maxItems cards hpos
  have h0 : (0 : Int) < maxItems := by omega
  have heq := searchLoop_eq_take rawUrl mk maxItems cards 0 h0
  have heq' : search rawUrl mk maxItems cards
      = (cards.filterMap (searchRecord rawUrl mk)).take maxItems.toNat := by
    simpa [search] using heq
  refine ⟨heq', ?_⟩
  rw [heq']
  rw [List.length_take]
  exact Nat.min_le_left _ _

theorem search_spec_witness :
    search (fun u : Option String => u)
        (fun _ u => ⟨"", u, none, "", none, none, none, none, none⟩) 3
        [some "https://a.example/1", none, some "https://a.example/2",
         some "", some "https://a.example/3", some "https://a.example/4"]
          = ([some "https://a.example/1", none, some "https://a.example/2",
              some "", some "https://a.example/3",
              some "https://a.example/4"].filterMap
              (searchRecord (fun u : Option String => u)
                (fun _ u => ⟨"", u, none, "", none, none, none, none, none⟩))).take
              (3 : Int).toNat
        ∧ (search (fun u : Option String => u)
            (fun _ u => ⟨"", u, none, "", none, none, none, none, none⟩) 3
            [some "https://a.example/1", none, some "https://a.example/2",
             some "", some "https://a.example/3",
             some "https://a.example/4"]).length ≤ (3 : Int).toNat :=
  search_spec (Option String) (fun u => u)
    (fun _ u => ⟨"", u, none, "", none, none, none, none, none⟩) 3
    [some "https://a.example/1", none, some "https://a.example/2",
     some "", some "https://a.example/3", some "https://a.example/4"]
    (by decide)

/-! ## outputs/exporters.py: compact JSON export and re-parse

`export_to_json(articles, path, pretty=False)` writes
`json.dump(articles, f, separators=(",", ":"), ensure_ascii=False)` to
the file.  Text is modelled as a list of Unicode code points
(`List Nat`), an article record as `GoogleNewsArticle (List Nat)` (the
dictionaries produced by `search` have exactly these nine keys, each
mapped to a string or `None`), and the written file as the code-point
sequence produced by the encoder.  Re-parsing is modelled by a parser
for the exact JSON grammar `json.dump` emits for such records
(`json.loads` restricted to this grammar); directory creation and file
I/O are outside the model. -/

/-- Code points of a Lean string literal. -/
def lit (s : String) : List Nat := s.data.map Char.toNat

/-- Lower-case hex digit of `n < 16`, as in Python's `'\\u%04x'`. -/
def hexDigitChar (n : Nat) : Nat := if n < 10 then 48 + n else 87 + n

/-- Escaping of one character by `json.dump` with `ensure_ascii=False`:
`"` and `\\` are backslash-escaped, the five control characters with
short escapes use them, the remaining control characters below 0x20
become `\\u00XY`, and everything else is emitted verbatim. -/
def escapeChar (c : Nat) : List Nat :=
  if c = 34 then [92, 34]
  else if c = 92 then [92, 92]
  else if c = 8 then [92, 98]
  else if c = 9 then [92, 116]
  else if c = 10 then [92, 110]
  else if c = 12 then [92, 102]
  else if c = 13 then [92, 114]
  else if c < 32 then [92, 117, 48, 48, hexDigitChar (c / 16), hexDigitChar (c % 16)]
  else [c]

/-- Escape every character of a string body and concatenate. -/
def encStrBody : List Nat → List Nat
  | [] => []
  | c :: cs => escapeChar c ++ encStrBody cs

/-- A JSON string literal: quote, escaped body, quote. -/
def encStr (s : List Nat) : List Nat := 34 :: encStrBody s ++ [34]

/-- A string-or-null JSON value (`Optional[str]` field). -/
def encOptStr : Option (List Nat) → List Nat
  | none => [110, 117, 108, 108]
  | some s => encStr s

/-- The token opening an object at its first key: `{"k":`. -/
def tokObjStart (k : String) : List Nat := 123 :: (lit ("\"" ++ k ++ "\":"))

/-- The token introducing a further key: `,"k":`. -/
def tokNext (k : String) : List Nat := 44 :: (lit ("\"" ++ k ++ "\":"))

/-- One article dictionary as `json.dump` emits it with compact
separators: the nine dataclass fields in declaration order. -/
def encArticle (a : GoogleNewsArticle (List Nat)) : List Nat :=
  tokObjStart "googleNewsUrl" ++ encStr a.googleNewsUrl ++
  tokNext "articleUrl" ++ encStr a.articleUrl ++
  tokNext "decodedArticleUrl" ++ encOptStr a.decodedArticleUrl ++
  tokNext "title" ++ encStr a.title ++
  tokNext "publishedAt" ++ encOptStr a.publishedAt ++
  tokNext "imageUrl" ++ encOptStr a.imageUrl ++
  tokNext "source" ++ encOptStr a.source ++
  tokNext "sourceIconUrl" ++ encOptStr a.sourceIconUrl ++
  tokNext "author" ++ encOptStr a.author ++ [125]

/-- The remainder of the array after its first element: either `]` or a
comma followed by the next element. -/
def encTail : List (GoogleNewsArticle (List Nat)) → List Nat
  | [] => [93]
  | a :: rest => 44 :: encArticle a ++ encTail rest

/-- `export_to_json(articles, output_path, pretty=False)` from
`src/outputs/exporters.py` lines 13-34: the code points written to the
output file by `json.dump(articles, f, separators=(",", ":"),
ensure_ascii=False)`. -/
def export_to_json : List (GoogleNewsArticle (List Nat)) → List Nat
  | [] => [91, 93]
  | a :: rest => 91 :: encArticle a ++ encTail rest

/-- Consume an expected literal token, returning the remaining input. -/
def parseTok : List Nat → List Nat → Option (List Nat)
  | [], input => some input
  | t :: ts, c :: cs => if c = t then parseTok ts cs else none
  | _ :: _, [] => none

/-- Value of one hex digit, upper or lower case, as `json.loads`
accepts inside `\\uXXXX`. -/
def hexVal (c : Nat) : Option Nat :=
  if 48 ≤ c ∧ c ≤ 57 then some (c - 48)
  else if 97 ≤ c ∧ c ≤ 102 then some (c - 87)
  else if 65 ≤ c ∧ c ≤ 70 then some (c - 55)
  else none

/-- Body of a JSON string up to its closing quote, decoding the escape
sequences `json.loads` accepts (strict mode: a raw control character is
rejected; surrogate-pair recombination is not modelled, the encoder
only emits `\\u00XY`). -/
def parseStrBody : List Nat → Option (List Nat × List Nat)
  | [] => none
  | c :: cs =>
    if c = 34 then some ([], cs)
    else if c = 92 then
      match cs with
      | [] => none
      | e :: cs2 =>
        if e = 34 then (parseStrBody cs2).map (fun p => (34 :: p.1, p.2))
        else if e = 92 then (parseStrBody cs2).map (fun p => (92 :: p.1, p.2))
        else if e = 47 then (parseStrBody cs2).map (fun p => (47 :: p.1, p.2))
        else if e = 98 then (parseStrBody cs2).map (fun p => (8 :: p.1, p.2))
        else if e = 102 then (parseStrBody cs2).map (fun p => (12 :: p.1, p.2))
        else if e = 110 then (parseStrBody cs2).map (fun p => (10 :: p.1, p.2))
        else if e = 114 then (parseStrBody cs2).map (fun p => (13 :: p.1, p.2))
        else if e = 116 then (parseStrBody cs2).map (fun p => (9 :: p.1, p.2))
        else if e = 117 then
          match cs2 with
          | h1 :: h2 :: h3 :: h4 :: cs3 =>
            match hexVal h1, hexVal h2, hexVal h3, hexVal h4 with
            | some a, some b, some c2, some d =>
              (parseStrBody cs3).map
                (fun p => ((a * 4096 + b * 256 + c2 * 16 + d) :: p.1, p.2))
            | _, _, _, _ => none
          | _ => none
        else none
    else if c < 32 then none
    else (parseStrBody cs).map (fun p => (c :: p.1, p.2))

/-- A complete JSON string literal. -/
def parseStr : List Nat → Option (List Nat × List Nat)
  | c :: cs => if c = 34 then parseStrBody cs else none
  | [] => none

/-- A string-or-`null` value. -/
def parseStrOrNull (input : List Nat) : Option (Option (List Nat) × List Nat) :=
  if input.take 4 = [110, 117, 108, 108] then some (none, input.drop 4)
  else (parseStr input).map (fun p => (some p.1, p.2))

/-- A key token followed by a string value. -/
def parseKeyStr (tok input : List Nat) : Option (List Nat × List Nat) :=
  match parseTok tok input with
  | none => none
  | some r => parseStr r

/-- A key token followed by a string-or-`null` value. -/
def parseKeyOpt (tok input : List Nat) :
    Option (Option (List Nat) × List Nat) :=
  match parseTok tok input with
  | none => none
  | some r => parseStrOrNull r

/-- One article object: the nine keys in order, then `}`. -/
def parseArticle (input : List Nat) :
    Option (GoogleNewsArticle (List Nat) × List Nat) :=
  (parseKeyStr (tokObjStart "googleNewsUrl") input).bind fun p1 =>
  (parseKeyStr (tokNext "articleUrl") p1.2).bind fun p2 =>
  (parseKeyOpt (tokNext "decodedArticleUrl") p2.2).bind fun p3 =>
  (parseKeyStr (tokNext "title") p3.2).bind fun p4 =>
  (parseKeyOpt (tokNext "publishedAt") p4.2).bind fun p5 =>
  (parseKeyOpt (tokNext "imageUrl") p5.2).bind fun p6 =>
  (parseKeyOpt (tokNext "source") p6.2).bind fun p7 =>
  (parseKeyOpt (tokNext "sourceIconUrl") p7.2).bind fun p8 =>
  (parseKeyOpt (tokNext "author") p8.2).bind fun p9 =>
  (parseTok [125] p9.2).map fun r =>
    (⟨p1.1, p2.1, p3.1, p4.1, p5.1, p6.1, p7.1, p8.1, p9.1⟩, r)

/-- The elements of the array after the first: `]` ends it, `,` is
followed by another object.  `fuel` bounds the number of remaining
elements (each consumes input, so the input length suffices). -/
def parseMoreArticles (fuel : Nat) (input : List Nat) :
    Option (List (GoogleNewsArticle (List Nat)) × List Nat) :=
  match input with
  | 93 :: rest => some ([], rest)
  | 44 :: rest =>
    match fuel with
    | 0 => none
    | Nat.succ fuel2 =>
      (parseArticle rest).bind fun p =>
      (parseMoreArticles fuel2 p.2).map fun q => (p.1 :: q.1, q.2)
  | _ => none

/-- A complete JSON array of article objects. -/
def parseArticleList (fuel : Nat) (input : List Nat) :
    Option (List (GoogleNewsArticle (List Nat)) × List Nat) :=
  if input.take 2 = [91, 93] then some ([], input.drop 2)
  else
    match input with
    | 91 :: rest =>
      (parseArticle rest).bind fun p =>
      (parseMoreArticles fuel p.2).map fun q => (p.1 :: q.1, q.2)
    | _ => none

/-- Model of `json.loads` on the written file: parse the article array
and require the whole input to be consumed. -/
def json_loads_articles (input : List Nat) :
    Option (List (GoogleNewsArticle (List Nat))) :=
  match parseArticleList input.length input with
  | some (v, []) => some v
  | _ => none

theorem parseTok_append (t rest : List Nat) :
    parseTok t (t ++ rest) = some rest := by
  induction t with
  | nil => rfl
  | cons c ts ih => simp [parseTok, ih]

theorem parseTok_single (t : Nat) (rest : List Nat) :
    parseTok [t] (t :: rest) = some rest := by
  simp [parseTok]

theorem hexVal_hexDigitChar : ∀ n : Nat, n < 16 →
    hexVal (hexDigitChar n) = some n := by
  decide

theorem parseStrBody_quote (rest : List Nat) :
    parseStrBody (34 :: rest) = some ([], rest) := by
  rw [parseStrBody.eq_def]
  simp

theorem parseStrBody_esc34 (tail : List Nat) :
    parseStrBody (92 :: 34 :: tail)
      = (parseStrBody tail).map (fun p => (34 :: p.1, p.2)) := by
  conv_lhs => rw [parseStrBody.eq_def]
  simp

theorem parseStrBody_esc92 (tail : List Nat) :
    parseStrBody (92 :: 92 :: tail)
      = (parseStrBody tail).map (fun p => (92 :: p.1, p.2)) := by
  conv_lhs => rw [parseStrBody.eq_def]
  simp

theorem parseStrBody_escB (tail : List Nat) :
    parseStrBody (92 :: 98 :: tail)
      = (parseStrBody tail).map (fun p => (8 :: p.1, p.2)) := by
  conv_lhs => rw [parseStrBody.eq_def]
  simp

theorem parseStrBody_escT (tail : List Nat) :
    parseStrBody (92 :: 116 :: tail)
      = (parseStrBody tail).map (fun p => (9 :: p.1, p.2)) := by
  conv_lhs => rw [parseStrBody.eq_def]
  simp

theorem parseStrBody_escN (tail : List Nat) :
    parseStrBody (92 :: 110 :: tail)
      = (parseStrBody tail).map (fun p => (10 :: p.1, p.2)) := by
  conv_lhs => rw [parseStrBody.eq_def]
  simp

theorem parseStrBody_escF (tail : List Nat) :
    parseStrBody (92 :: 102 :: tail)
      = (parseStrBody tail).map (fun p => (12 :: p.1, p.2)) := by
  conv_lhs => rw [parseStrBody.eq_def]
  simp

theorem parseStrBody_escR (tail : List Nat) :
    parseStrBody (92 :: 114 :: tail)
      = (parseStrBody tail).map (fun p => (13 :: p.1, p.2)) := by
  conv_lhs => rw [parseStrBody.eq_def]
  simp

theorem parseStrBody_escU (h1 h2 h3 h4 : Nat) (tail : List Nat) :
    parseStrBody (92 :: 117 :: h1 :: h2 :: h3 :: h4 :: tail)
      = match hexVal h1, hexVal h2, hexVal h3, hexVal h4 with
        | some a, some b, some c2, some d =>
          (parseStrBody tail).map
            (fun p => ((a * 4096 + b * 256 + c2 * 16 + d) :: p.1, p.2))
        | _, _, _, _ => none := by
  conv_lhs => rw [parseStrBody.eq_def]
  simp

theorem parseStrBody_char (c : Nat) (tail : List Nat) (h34 : c ≠ 34)
    (h92 : c ≠ 92) (hlt : ¬ c < 32) :
    parseStrBody (c :: tail)
      = (parseStrBody tail).map (fun p => (c :: p.1, p.2)) := by
  conv_lhs => rw [parseStrBody.eq_def]
  simp [h34, h92, hlt]

theorem parseStrBody_enc (s rest : List Nat) :
    parseStrBody (encStrBody s ++ 34 :: rest) = some (s, rest) := by
  induction s with
  | nil => simp [encStrBody, parseStrBody_quote]
  | cons c cs ih =>
    rcases eq_or_ne c 34 with rfl | h34
    · simp [encStrBody, escapeChar, parseStrBody_esc34, ih]
    rcases eq_or_ne c 92 with rfl | h92
    · simp [encStrBody, escapeChar, parseStrBody_esc92, ih]
    rcases eq_or_ne c 8 with rfl | h8
    · simp [encStrBody, escapeChar, parseStrBody_escB, ih]
    rcases eq_or_ne c 9 with rfl | h9
    · simp [encStrBody, escapeChar, parseStrBody_escT, ih]
    rcases eq_or_ne c 10 with rfl | h10
    · simp [encStrBody, escapeChar, parseStrBody_escN, ih]
    rcases eq_or_ne c 12 with rfl | h12
    · simp [encStrBody, escapeChar, parseStrBody_escF, ih]
    rcases eq_or_ne c 13 with rfl | h13
    · simp [encStrBody, escapeChar, parseStrBody_escR, ih]
    by_cases hlt : c < 32
    · have hq : c / 16 < 16 := by omega
      have hr : c % 16 < 16 := by omega
      have hv1 := hexVal_hexDigitChar (c / 16) hq
      have hv2 := hexVal_hexDigitChar (c % 16) hr
      have hv48 : hexVal 48 = some 0 := rfl
      have hc : c / 16 * 16 + c % 16 = c := by omega
      simp [encStrBody, escapeChar, h34, h92, h8, h9, h10, h12, h13, hlt,
        parseStrBody_escU, hv48, hv1, hv2, ih, hc]
    · have hstep := parseStrBody_char c (encStrBody cs ++ 34 :: rest) h34 h92 hlt
      simp [encStrBody, escapeChar, h34, h92, h8, h9, h10, h12, h13, hlt,
        hstep, ih]

theorem parseStr_enc (s rest : List Nat) :
    parseStr (encStr s ++ rest) = some (s, rest) := by
  simp [encStr, parseStr, parseStrBody_enc]

theorem parseStrOrNull_enc (o : Option (List Nat)) (rest : List Nat) :
    parseStrOrNull (encOptStr o ++ rest) = some (o, rest) := by
  cases o with
  | none => simp [encOptStr, parseStrOrNull]
  | some s =>
    have h2 : ¬ ((encStr s ++ rest).take 4 = [110, 117, 108, 108]) := by
      simp [encStr]
    unfold parseStrOrNull
    simp only [encOptStr]
    rw [if_neg h2, parseStr_enc]
    rfl

theorem parseKeyStr_enc (tok s rest : List Nat) :
    parseKeyStr tok (tok ++ (encStr s ++ rest)) = some (s, rest) := by
  simp [parseKeyStr, parseTok_append, parseStr_enc]

theorem parseKeyOpt_enc (tok : List Nat) (o : Option (List Nat))
    (rest : List Nat) :
    parseKeyOpt tok (tok ++ (encOptStr o ++ rest)) = some (o, rest) := by
  simp [parseKeyOpt, parseTok_append, parseStrOrNull_enc]

theorem parseArticle_enc (a : GoogleNewsArticle (List Nat)) (rest : List Nat) :
    parseArticle (encArticle a ++ rest) = some (a, rest) := by
  simp [parseArticle, encArticle, parseKeyStr_enc, parseKeyOpt_enc,
    parseTok_single, List.append_assoc]

theorem parseMoreArticles_enc :
    ∀ (arts : List (GoogleNewsArticle (List Nat))) (fuel : Nat)
      (rest : List Nat), arts.length ≤ fuel →
      parseMoreArticles fuel (encTail arts ++ rest) = some (arts, rest) := by
  intro arts
  induction arts with
  | nil =>
    intro fuel rest _
    simp [encTail, parseMoreArticles]
  | cons a tl ih =>
    intro fuel rest hlen
    cases fuel with
    | zero =>
      simp only [List.length_cons] at hlen
      omega
    | succ fuel2 =>
      have hlen2 : tl.length ≤ fuel2 := by
        simp only [List.length_cons] at hlen
        omega
      simp [encTail, parseMoreArticles, parseArticle_enc, ih fuel2 rest hlen2]

theorem length_le_encTail :
    ∀ arts : List (GoogleNewsArticle (List Nat)),
      arts.length ≤ (encTail arts).length := by
  intro arts
  induction arts with
  | nil => simp [encTail]
  | cons a tl ih =>
    simp [encTail, List.length_cons, List.length_append]
    omega

theorem encArticle_take1 (a : GoogleNewsArticle (List Nat)) (X : List Nat) :
    (encArticle a ++ X).take 1 = [123] := by
  simp [encArticle, tokObjStart]

/-- C8: exporting any list of N article records with `pretty=False` via
`export_to_json` and re-parsing the written JSON yields exactly the same
list of N records (serialise-then-parse is the identity on article
lists). -/
theorem export_roundtrip (arts : List (GoogleNewsArticle (List Nat))) :
    json_loads_articles (export_to_json arts) = some arts := by
  cases arts with
  | nil => rfl
  | cons a tl =>
    unfold json_loads_articles
    generalize hfuel : (export_to_json (a :: tl)).length = fuel
    have hge : tl.length ≤ fuel := by
      rw [← hfuel]
      have h2 := length_le_encTail tl
      simp [export_to_json, List.length_cons, List.length_append]
      omega
    have hmore := parseMoreArticles_enc tl fuel [] hge
    rw [List.append_nil] at hmore
    have hexp : export_to_json (a :: tl) = 91 :: encArticle a ++ encTail tl :=
      rfl
    rw [hexp]
    have hcond : ¬ ((91 :: encArticle a ++ encTail tl).take 2 = [91, 93]) := by
      simp [encArticle_take1]
    have harts : parseArticleList fuel (91 :: encArticle a ++ encTail tl)
        = some (a :: tl, []) := by
      unfold parseArticleList
      rw [if_neg hcond]
      simp [parseArticle_enc, hmore]
    rw [harts]

end GNScraper
